import Mathlib

/-!
Verification of the EchoCast channel registry and broadcast core
(`src/server.js`), embedded shallowly in Lean.

The server keeps `const channels = new Map()`, a map from channel name to a
`Set` of WebSocket handles.  We embed the map as an association list with
first-match lookup (a JS `Map` has unique keys, so on reachable states the
two agree), and a `Set<ws>` as a list of handles with reference identity
modelled by a numeric `id`.  The three registry operations are embedded from
the three anonymous handlers in `server.js`:

* `subscribe`     — the body of `wss.on('connection')` after the empty-channel
                    check (lines 62–65);
* `unsubscribe`   — the body of `ws.on('close')` (lines 67–75);
* `sendHandler`   — the body of `app.post('/send/:channel')` after
                    authentication (lines 32–52).
-/

set_option autoImplicit false

namespace EchoCast

/-- One WebSocket handle.  `id` models JS reference identity (two handles are
the same object iff their ids agree); `readyState` is the ws library's
readyState field (`WebSocket.OPEN = 1`). -/
structure WS where
  id : Nat
  readyState : Nat
  deriving DecidableEq, Repr

/-- `WebSocket.OPEN` in the ws library. -/
def WSOPEN : Nat := 1

/-- The in-memory registry: `Map<channel, Set<ws>>` as an association list. -/
abbrev Channels := List (String × List WS)

/-- `channels.get(c)`: first entry whose key is `c`. -/
def getChannel : Channels → String → Option (List WS)
  | [], _ => none
  | p :: rest, c => if p.1 = c then some p.2 else getChannel rest c

/-- `channels.has(c)`. -/
def hasChannel (chs : Channels) (c : String) : Bool :=
  (getChannel chs c).isSome

/-- Replace the (unique) entry for key `c` by applying `f` to its set. -/
def mapUpdate : Channels → String → (List WS → List WS) → Channels
  | [], _, _ => []
  | p :: rest, c, f => if p.1 = c then (p.1, f p.2) :: rest else p :: mapUpdate rest c f

/-- `channels.delete(c)`: drop the (unique) entry for key `c`. -/
def mapRemove : Channels → String → Channels
  | [], _ => []
  | p :: rest, c => if p.1 = c then rest else p :: mapRemove rest c

/-- `Set.add(w)`: a no-op when an element with the same identity is present,
otherwise appends (JS sets keep insertion order). -/
def setAdd (s : List WS) (w : WS) : List WS :=
  if s.any (fun x => x.id == w.id) then s else s ++ [w]

/-- `Set.delete(w)`: removes the element with `w`'s identity. -/
def setDelete (s : List WS) (w : WS) : List WS :=
  s.filter (fun x => x.id != w.id)

/-- `channels.get(c)` contains `w`. -/
def memberOf (chs : Channels) (c : String) (w : WS) : Bool :=
  ((getChannel chs c).getD []).any (fun x => x.id == w.id)

/-- Lines 62–65 of `server.js`:
`if (!channels.has(channel)) channels.set(channel, new Set());
 channels.get(channel).add(ws);` -/
def subscribe (chs : Channels) (c : String) (w : WS) : Channels :=
  let chs' := if hasChannel chs c then chs else chs ++ [(c, [])]
  mapUpdate chs' c (fun s => setAdd s w)

/-- Lines 67–75 of `server.js` (the `ws.on('close')` handler):
`const clients = channels.get(channel);
 if (clients) { clients.delete(ws);
   if (clients.size === 0) channels.delete(channel); }` -/
def unsubscribe (chs : Channels) (c : String) (w : WS) : Channels :=
  match getChannel chs c with
  | none => chs
  | some clients =>
    let clients' := setDelete clients w
    if clients'.length = 0 then mapRemove chs c else mapUpdate chs c (fun _ => clients')

/-- The structured record `{channel, message}` written to each subscriber
(line 47 of `server.js`, before `JSON.stringify`). -/
structure Envelope where
  channel : String
  message : String
  deriving DecidableEq, Repr

/-- The three response bodies the `/send/:channel` handler can produce. -/
inductive SendResponse where
  /-- 400 with body `error: Missing message in body`. -/
  | missingMessage
  /-- 200 with body `status: No subscribers, but message accepted`. -/
  | noSubscribersAccepted
  /-- 200 with body `status: Message sent`. -/
  | messageSent
  deriving DecidableEq, Repr

/-- Everything observable about one run of the `/send/:channel` handler:
the HTTP status, the JSON body, the list of `client.send` calls performed
(receiver paired with the envelope written), and the registry afterwards. -/
structure SendResult where
  status : Nat
  response : SendResponse
  deliveries : List (WS × Envelope)
  channelsAfter : Channels
  deriving DecidableEq, Repr

/-- Lines 32–52 of `server.js`, after authentication.  `message` is the
`message` field of the JSON body (`none` when absent; `some ""` is falsy in
JS, hence also rejected by `if (!message)`).  The `forEach` loop sends the
envelope to every client whose `readyState` is `OPEN` and skips the rest. -/
def sendHandler (chs : Channels) (channel : String) (message : Option String) : SendResult :=
  match message with
  | none => ⟨400, SendResponse.missingMessage, [], chs⟩
  | some m =>
    if m = "" then ⟨400, SendResponse.missingMessage, [], chs⟩
    else if hasChannel chs channel then
      let clients := (getChannel chs channel).getD []
      let deliveries := clients.filterMap (fun client =>
        if client.readyState == WSOPEN then some (client, Envelope.mk channel m) else none)
      ⟨200, SendResponse.messageSent, deliveries, chs⟩
    else
      ⟨200, SendResponse.noSubscribersAccepted, [], chs⟩

/-- Outcome of the `wss.on('connection')` handler for one new socket. -/
inductive ConnResult where
  /-- `ws.close(code, reason)` was called and the socket never subscribed. -/
  | closedConn (code : Nat) (reason : String)
  /-- The socket was added to its channel's set. -/
  | subscribedConn
  deriving DecidableEq, Repr

/-- Lines 55–65 of `server.js`: extract the channel from the request url
(`req.url.substring(1)`), reject empty names with
`ws.close(1008, 'Channel required in URL')`, otherwise subscribe. -/
def handleConnection (chs : Channels) (ws : WS) (url : String) : Channels × ConnResult :=
  let channel := url.drop 1
  if channel = "" then (chs, ConnResult.closedConn 1008 "Channel required in URL")
  else (subscribe chs channel ws, ConnResult.subscribedConn)

/-- Spec §3 invariant: a channel is in the mapping iff its set is non-empty;
for an association list this says every stored set is non-empty. -/
def Invariant (chs : Channels) : Prop :=
  ∀ p ∈ chs, p.2 ≠ []

/-- Number of still-live (readyState `OPEN`) handles in `c`'s set. -/
def liveCount (chs : Channels) (c : String) : Nat :=
  (((getChannel chs c).getD []).filter (fun x => x.readyState == WSOPEN)).length

/-- How many of the handler's `client.send` calls went to handle `w`. -/
def countDeliveriesTo (r : SendResult) (w : WS) : Nat :=
  r.deliveries.countP (fun d => d.1.id == w.id)

/-! ### Basic lemmas about the set and map primitives -/

theorem setAdd_ne_nil (s : List WS) (w : WS) : setAdd s w ≠ [] := by
  unfold setAdd
  split
  · rename_i h
    intro hnil
    subst hnil
    simp at h
  · simp

theorem setAdd_of_mem (s : List WS) (w : WS)
    (h : s.any (fun x => x.id == w.id) = true) : setAdd s w = s := by
  unfold setAdd
  simp [h]

theorem setAdd_of_not_mem (s : List WS) (w : WS)
    (h : s.any (fun x => x.id == w.id) = false) : setAdd s w = s ++ [w] := by
  unfold setAdd
  simp [h]

theorem setAdd_mem (s : List WS) (w : WS) :
    (setAdd s w).any (fun x => x.id == w.id) = true := by
  unfold setAdd
  split
  · assumption
  · simp

theorem setDelete_not_mem (s : List WS) (w : WS) :
    (setDelete s w).any (fun x => x.id == w.id) = false := by
  unfold setDelete
  rw [List.any_eq_false]
  intro x hx
  have hpx := List.of_mem_filter hx
  simpa using hpx

theorem setDelete_of_not_mem (s : List WS) (w : WS)
    (h : s.any (fun x => x.id == w.id) = false) : setDelete s w = s := by
  unfold setDelete
  apply List.filter_eq_self.mpr
  intro x hx
  rw [List.any_eq_false] at h
  have hx2 := h x hx
  simpa using hx2

theorem hasChannel_cons (k : String) (v : List WS) (rest : Channels) (c : String) :
    hasChannel ((k, v) :: rest) c = (decide (k = c) || hasChannel rest c) := by
  unfold hasChannel
  by_cases hp : k = c <;> simp [getChannel, hp]

theorem getChannel_none_of_not_has (chs : Channels) (c : String)
    (h : hasChannel chs c = false) : getChannel chs c = none := by
  unfold hasChannel at h
  exact Option.not_isSome_iff_eq_none.mp (by simp [h])

theorem getChannel_mapUpdate (chs : Channels) (c : String) (s : List WS)
    (f : List WS → List WS) (h : getChannel chs c = some s) :
    getChannel (mapUpdate chs c f) c = some (f s) := by
  induction chs with
  | nil => simp [getChannel] at h
  | cons p rest ih =>
    obtain ⟨k, v⟩ := p
    by_cases hp : k = c
    · simp [getChannel, hp] at h
      simp [mapUpdate, getChannel, hp, h]
    · simp [getChannel, hp] at h
      simp [mapUpdate, getChannel, hp]
      exact ih h

theorem mapUpdate_self (chs : Channels) (c : String) (s : List WS)
    (f : List WS → List WS) (h : getChannel chs c = some s) (hf : f s = s) :
    mapUpdate chs c f = chs := by
  induction chs with
  | nil => simp [getChannel] at h
  | cons p rest ih =>
    obtain ⟨k, v⟩ := p
    by_cases hp : k = c
    · simp [getChannel, hp] at h
      subst h
      simp [mapUpdate, hp, hf]
    · simp [getChannel, hp] at h
      simp [mapUpdate, hp]
      exact ih h

theorem getChannel_append_not_has (chs : Channels) (c : String) (s : List WS)
    (h : hasChannel chs c = false) :
    getChannel (chs ++ [(c, s)]) c = some s := by
  induction chs with
  | nil => simp [getChannel]
  | cons p rest ih =>
    obtain ⟨k, v⟩ := p
    rw [hasChannel_cons] at h
    simp at h
    simp [getChannel, h.1]
    exact ih h.2

theorem mapUpdate_append_not_has (chs : Channels) (c : String) (s : List WS)
    (f : List WS → List WS) (h : hasChannel chs c = false) :
    mapUpdate (chs ++ [(c, s)]) c f = chs ++ [(c, f s)] := by
  induction chs with
  | nil => simp [mapUpdate]
  | cons p rest ih =>
    obtain ⟨k, v⟩ := p
    rw [hasChannel_cons] at h
    simp at h
    simp [mapUpdate, h.1]
    exact ih h.2

theorem mapRemove_append_not_has (chs : Channels) (c : String) (s : List WS)
    (h : hasChannel chs c = false) :
    mapRemove (chs ++ [(c, s)]) c = chs := by
  induction chs with
  | nil => simp [mapRemove]
  | cons p rest ih =>
    obtain ⟨k, v⟩ := p
    rw [hasChannel_cons] at h
    simp at h
    simp [mapRemove, h.1]
    exact ih h.2

/-! ### Unfolding lemmas for the registry operations -/

theorem subscribe_not_has (chs : Channels) (c : String) (w : WS)
    (h : hasChannel chs c = false) :
    subscribe chs c w = chs ++ [(c, [w])] := by
  unfold subscribe
  simp [h]
  rw [mapUpdate_append_not_has chs c [] (fun s => setAdd s w) h]
  simp [setAdd]

theorem subscribe_has (chs : Channels) (c : String) (w : WS)
    (h : hasChannel chs c = true) :
    subscribe chs c w = mapUpdate chs c (fun s => setAdd s w) := by
  unfold subscribe
  simp [h]

theorem getChannel_subscribe (chs : Channels) (c : String) (w : WS) :
    getChannel (subscribe chs c w) c = some (setAdd ((getChannel chs c).getD []) w) := by
  by_cases h : hasChannel chs c = true
  · obtain ⟨s, hs⟩ := Option.isSome_iff_exists.mp h
    rw [subscribe_has chs c w h, getChannel_mapUpdate chs c s (fun t => setAdd t w) hs, hs]
    rfl
  · have h' : hasChannel chs c = false := by simpa using h
    rw [subscribe_not_has chs c w h', getChannel_append_not_has chs c [w] h',
      getChannel_none_of_not_has chs c h']
    simp [setAdd]

theorem subscribe_nil (c : String) (w : WS) : subscribe [] c w = [(c, [w])] := by
  rw [subscribe_not_has [] c w rfl]
  rfl

theorem subscribe_cons_ne (k : String) (v : List WS) (rest : Channels) (c : String) (w : WS)
    (h : ¬ k = c) :
    subscribe ((k, v) :: rest) c w = (k, v) :: subscribe rest c w := by
  unfold subscribe
  rw [hasChannel_cons]
  by_cases hr : hasChannel rest c = true
  · simp [h, hr, mapUpdate]
  · have hr' : hasChannel rest c = false := by simpa using hr
    simp [h, hr', mapUpdate]

theorem subscribe_cons_eq (k : String) (v : List WS) (rest : Channels) (w : WS) :
    subscribe ((k, v) :: rest) k w = (k, setAdd v w) :: rest := by
  unfold subscribe
  rw [hasChannel_cons]
  simp [mapUpdate]

theorem unsubscribe_nil (c : String) (w : WS) : unsubscribe [] c w = [] := rfl

theorem unsubscribe_cons_ne (k : String) (v : List WS) (rest : Channels) (c : String) (w : WS)
    (h : ¬ k = c) :
    unsubscribe ((k, v) :: rest) c w = (k, v) :: unsubscribe rest c w := by
  unfold unsubscribe
  have hg : getChannel ((k, v) :: rest) c = getChannel rest c := by simp [getChannel, h]
  rw [hg]
  cases hr : getChannel rest c with
  | none => rfl
  | some clients =>
    by_cases hl : (setDelete clients w).length = 0
    · simp [hl, mapRemove, h]
    · simp [hl, mapRemove, mapUpdate, h]

theorem unsubscribe_cons_eq (k : String) (v : List WS) (rest : Channels) (w : WS) :
    unsubscribe ((k, v) :: rest) k w =
      if (setDelete v w).length = 0 then rest else (k, setDelete v w) :: rest := by
  unfold unsubscribe
  have hg : getChannel ((k, v) :: rest) k = some v := by simp [getChannel]
  rw [hg]
  by_cases hl : (setDelete v w).length = 0
  · simp [hl, mapRemove]
  · simp [hl, mapUpdate]

theorem invariant_subscribe (chs : Channels) (c : String) (w : WS)
    (h : Invariant chs) : Invariant (subscribe chs c w) := by
  induction chs with
  | nil =>
    rw [subscribe_nil]
    intro p hp
    simp at hp
    subst hp
    simp
  | cons p rest ih =>
    obtain ⟨k, v⟩ := p
    have hrest : Invariant rest := fun q hq => h q (List.mem_cons_of_mem _ hq)
    by_cases hk : k = c
    · subst hk
      rw [subscribe_cons_eq]
      intro q hq
      rcases List.mem_cons.mp hq with h1 | h2
      · subst h1
        exact setAdd_ne_nil v w
      · exact hrest q h2
    · rw [subscribe_cons_ne k v rest c w hk]
      intro q hq
      rcases List.mem_cons.mp hq with h1 | h2
      · subst h1
        exact h (k, v) (List.mem_cons_self _ _)
      · exact ih hrest q h2

theorem invariant_unsubscribe (chs : Channels) (c : String) (w : WS)
    (h : Invariant chs) : Invariant (unsubscribe chs c w) := by
  induction chs with
  | nil =>
    rw [unsubscribe_nil]
    exact h
  | cons p rest ih =>
    obtain ⟨k, v⟩ := p
    have hrest : Invariant rest := fun q hq => h q (List.mem_cons_of_mem _ hq)
    by_cases hk : k = c
    · subst hk
      rw [unsubscribe_cons_eq]
      by_cases hl : (setDelete v w).length = 0
      · rw [if_pos hl]
        exact hrest
      · rw [if_neg hl]
        intro q hq
        rcases List.mem_cons.mp hq with h1 | h2
        · subst h1
          intro hnil
          have hnil' : setDelete v w = [] := hnil
          exact hl (by simp [hnil'])
        · exact hrest q h2
    · rw [unsubscribe_cons_ne k v rest c w hk]
      intro q hq
      rcases List.mem_cons.mp hq with h1 | h2
      · subst h1
        exact h (k, v) (List.mem_cons_self _ _)
      · exact ih hrest q h2

theorem unsubscribe_none (chs : Channels) (c : String) (w : WS)
    (hg : getChannel chs c = none) : unsubscribe chs c w = chs := by
  unfold unsubscribe
  rw [hg]

theorem unsubscribe_eq_of_get (chs : Channels) (c : String) (w : WS) (s : List WS)
    (hg : getChannel chs c = some s) :
    unsubscribe chs c w =
      if (setDelete s w).length = 0 then mapRemove chs c
      else mapUpdate chs c (fun _ => setDelete s w) := by
  unfold unsubscribe
  rw [hg]

theorem getChannel_mem (chs : Channels) (c : String) (s : List WS)
    (h : getChannel chs c = some s) : (c, s) ∈ chs := by
  induction chs with
  | nil => simp [getChannel] at h
  | cons p rest ih =>
    obtain ⟨k, v⟩ := p
    by_cases hp : k = c
    · simp [getChannel, hp] at h
      simp [List.mem_cons, hp, h]
    · simp [getChannel, hp] at h
      exact List.mem_cons_of_mem _ (ih h)

theorem sendHandler_channelsAfter (chs : Channels) (c : String) (m : Option String) :
    (sendHandler chs c m).channelsAfter = chs := by
  unfold sendHandler
  cases m with
  | none => rfl
  | some s =>
    by_cases h1 : s = "" <;> by_cases h2 : hasChannel chs c <;> simp [h1, h2]

theorem sendHandler_present (chs : Channels) (c : String) (m : String)
    (hm : m ≠ "") (hc : hasChannel chs c = true) :
    sendHandler chs c (some m) =
      ⟨200, SendResponse.messageSent,
        ((getChannel chs c).getD []).filterMap (fun x =>
          if x.readyState == WSOPEN then some (x, Envelope.mk c m) else none),
        chs⟩ := by
  unfold sendHandler
  simp [hm, hc]

theorem deliveries_as_filter (l : List WS) (c : String) (m : String) :
    l.filterMap (fun x => if x.readyState == WSOPEN then some (x, Envelope.mk c m) else none)
      = (l.filter (fun x => x.readyState == WSOPEN)).map (fun x => (x, Envelope.mk c m)) := by
  induction l with
  | nil => rfl
  | cons x l ih =>
    rw [List.filterMap_cons, List.filter_cons]
    by_cases h : x.readyState = WSOPEN
    · simp [h]
      simpa using ih
    · simp [h]
      simpa using ih

theorem sendHandler_deliveries_eq (chs : Channels) (c : String) (m : String)
    (hm : m ≠ "") (hc : hasChannel chs c = true) :
    (sendHandler chs c (some m)).deliveries =
      ((getChannel chs c).getD []).filterMap (fun x =>
        if x.readyState == WSOPEN then some (x, Envelope.mk c m) else none) := by
  rw [sendHandler_present chs c m hm hc]

theorem setAdd_subset (s : List WS) (w : WS) (x : WS) (hx : x ∈ setAdd s w) :
    x ∈ s ∨ x = w := by
  unfold setAdd at hx
  split at hx
  · exact Or.inl hx
  · rcases List.mem_append.mp hx with h1 | h2
    · exact Or.inl h1
    · simp at h2
      exact Or.inr h2

theorem setAdd_pairwise (s : List WS) (w : WS)
    (hnd : s.Pairwise (fun a b => a.id ≠ b.id)) :
    (setAdd s w).Pairwise (fun a b => a.id ≠ b.id) := by
  unfold setAdd
  split
  · exact hnd
  · rename_i h
    rw [List.pairwise_append]
    refine ⟨hnd, by simp, ?_⟩
    intro a ha b hb
    simp at hb
    subst hb
    have h2 : s.any (fun x => x.id == b.id) = false := by simpa using h
    rw [List.any_eq_false] at h2
    have ha2 := h2 a ha
    simpa using ha2

theorem count_deliveries_filterMap (l : List WS) (c : String) (m : String) (w : WS)
    (hw : w.readyState = WSOPEN)
    (hcoh : ∀ x ∈ l, x.id = w.id → x = w) :
    ((l.filterMap (fun x =>
        if x.readyState == WSOPEN then some (x, Envelope.mk c m) else none)).countP
      (fun d => d.1.id == w.id))
    = l.countP (fun x => x.id == w.id) := by
  induction l with
  | nil => rfl
  | cons x l ih =>
    have ihl := ih (fun y hy => hcoh y (List.mem_cons_of_mem _ hy))
    rw [List.filterMap_cons, List.countP_cons]
    by_cases hid : x.id = w.id
    · have hxw : x = w := hcoh x (List.mem_cons_self _ _) hid
      subst hxw
      simp [hw, List.countP_cons]
      simpa using ihl
    · by_cases hopen : x.readyState = WSOPEN
      · simp [hopen, List.countP_cons, hid]
        simpa using ihl
      · simp [hopen, hid]
        simpa using ihl

theorem countP_id_eq_one (l : List WS) (w : WS)
    (hnd : l.Pairwise (fun a b => a.id ≠ b.id))
    (hmem : l.any (fun x => x.id == w.id) = true) :
    l.countP (fun x => x.id == w.id) = 1 := by
  induction l with
  | nil => simp at hmem
  | cons x l ih =>
    rw [List.countP_cons]
    rcases List.pairwise_cons.mp hnd with ⟨hx, hl⟩
    by_cases hid : x.id = w.id
    · have hzero : l.countP (fun y => y.id == w.id) = 0 := by
        rw [List.countP_eq_zero]
        intro y hy
        have hxy := hx y hy
        simp only [beq_iff_eq]
        intro hyw
        exact hxy (hid.trans hyw.symm)
      rw [hzero]
      simp [hid]
    · have hmem' : l.any (fun y => y.id == w.id) = true := by
        rw [List.any_cons] at hmem
        simpa [hid] using hmem
      simp [hid, ih hl hmem']

/-- Keys of the registry are pairwise distinct (a JS `Map` cannot hold two
entries with the same key). -/
def KeysNodup (chs : Channels) : Prop :=
  (chs.map Prod.fst).Nodup

theorem getChannel_none_of_not_key (chs : Channels) (c : String)
    (h : ∀ p ∈ chs, p.1 ≠ c) : getChannel chs c = none := by
  induction chs with
  | nil => rfl
  | cons p rest ih =>
    obtain ⟨k, v⟩ := p
    have hk : k ≠ c := h (k, v) (List.mem_cons_self _ _)
    simp [getChannel, hk]
    exact ih (fun q hq => h q (List.mem_cons_of_mem _ hq))

theorem unsubscribe_not_member (chs : Channels) (c : String) (w : WS)
    (hnd : KeysNodup chs) :
    memberOf (unsubscribe chs c w) c w = false := by
  induction chs with
  | nil => rfl
  | cons p rest ih =>
    obtain ⟨k, v⟩ := p
    have hnd' := hnd
    unfold KeysNodup at hnd'
    rw [List.map_cons, List.nodup_cons] at hnd'
    obtain ⟨hknotin, hndrest⟩ := hnd'
    have hnd_rest : KeysNodup rest := hndrest
    by_cases hk : k = c
    · subst hk
      rw [unsubscribe_cons_eq]
      by_cases hl : (setDelete v w).length = 0
      · rw [if_pos hl]
        have hkey : ∀ q ∈ rest, q.1 ≠ k := by
          intro q hq hqk
          have hmemk : q.1 ∈ rest.map Prod.fst := List.mem_map_of_mem Prod.fst hq
          rw [hqk] at hmemk
          exact hknotin hmemk
        unfold memberOf
        rw [getChannel_none_of_not_key rest k hkey]
        rfl
      · rw [if_neg hl]
        unfold memberOf
        rw [show getChannel ((k, setDelete v w) :: rest) k = some (setDelete v w) by
          simp [getChannel]]
        simpa using setDelete_not_mem v w
    · rw [unsubscribe_cons_ne k v rest c w hk]
      unfold memberOf
      rw [show getChannel ((k, v) :: unsubscribe rest c w) c
          = getChannel (unsubscribe rest c w) c by simp [getChannel, hk]]
      exact ih hnd_rest

theorem dead_not_delivered (chs : Channels) (c : String) (m : Option String) (w : WS)
    (hw : ¬ w.readyState = WSOPEN) :
    ∀ e, ¬ ((w, e) ∈ (sendHandler chs c m).deliveries) := by
  intro e he
  cases m with
  | none =>
    unfold sendHandler at he
    simp at he
  | some s =>
    by_cases h1 : s = ""
    · unfold sendHandler at he
      simp [h1] at he
    · by_cases h2 : hasChannel chs c = true
      · rw [sendHandler_deliveries_eq chs c s h1 h2, deliveries_as_filter] at he
        rw [List.mem_map] at he
        obtain ⟨x, hx, hxe⟩ := he
        have hxw : x = w := congrArg Prod.fst hxe
        subst hxw
        have hx2 := (List.mem_filter.mp hx).2
        exact hw (by simpa using hx2)
      · have h2' : hasChannel chs c = false := by simpa using h2
        unfold sendHandler at he
        simp [h1, h2'] at he

theorem live_delivered (chs : Channels) (c : String) (m : String) (hm : m ≠ "") :
    ∀ x ∈ (getChannel chs c).getD [], x.readyState = WSOPEN →
      (x, Envelope.mk c m) ∈ (sendHandler chs c (some m)).deliveries := by
  intro x hx hlive
  by_cases hc : hasChannel chs c = true
  · rw [sendHandler_deliveries_eq chs c m hm hc, deliveries_as_filter]
    rw [List.mem_map]
    exact ⟨x, List.mem_filter.mpr ⟨hx, by simp [hlive]⟩, rfl⟩
  · have hnone : getChannel chs c = none := by
      unfold hasChannel at hc
      exact Option.not_isSome_iff_eq_none.mp (by simpa using hc)
    rw [hnone] at hx
    simp at hx

/-! ### Claim theorems -/

/-- Claim C10: `publish` (the `/send/:channel` handler) leaves the channel
mapping completely unchanged for every registry state, channel and message —
it never removes a handle and never prunes an entry; only the
connection-close path mutates the mapping. -/
theorem publish_frame (chs : Channels) (c : String) (m : Option String) :
    (sendHandler chs c m).channelsAfter = chs :=
  sendHandler_channelsAfter chs c m

/-- Claim C9: a connection whose request url carries an empty channel name is
closed with code 1008 and reason `Channel required in URL` before any
subscription happens, and the registry is left unchanged. -/
theorem empty_channel_rejected (chs : Channels) (w : WS) (u : String)
    (h : u.drop 1 = "") :
    handleConnection chs w u
      = (chs, ConnResult.closedConn 1008 "Channel required in URL") := by
  unfold handleConnection
  simp [h]

/-- Witness for `empty_channel_rejected`: the url `/` (channel name empty). -/
theorem empty_channel_rejected_witness :
    handleConnection [("room1", [WS.mk 1 1])] (WS.mk 2 1) "/"
      = ([("room1", [WS.mk 1 1])], ConnResult.closedConn 1008 "Channel required in URL") :=
  empty_channel_rejected [("room1", [WS.mk 1 1])] (WS.mk 2 1) "/" (by decide)

/-- Claim C2: publishing to a channel absent from the mapping performs zero
deliveries, leaves the registry unchanged, and answers HTTP 200 (success,
body `No subscribers, but message accepted`), not an error. -/
theorem publish_no_subscribers_ok (chs : Channels) (c : String) (m : String)
    (hc : hasChannel chs c = false) (hm : m ≠ "") :
    sendHandler chs c (some m)
      = ⟨200, SendResponse.noSubscribersAccepted, [], chs⟩ := by
  unfold sendHandler
  simp [hm, hc]

/-- Witness for `publish_no_subscribers_ok`: empty registry, channel `news`. -/
theorem publish_no_subscribers_ok_witness :
    sendHandler [] "news" (some "hello")
      = ⟨200, SendResponse.noSubscribersAccepted, [], []⟩ :=
  publish_no_subscribers_ok [] "news" "hello" rfl (by decide)

/-- Claim C1 fails as stated: the value returned to the publisher is the fixed
body `status: Message sent`, never a delivery count.  Two registries for
`room1` — one with two live subscribers, one with a single live subscriber —
produce bit-identical responses (status and body), so the returned value
cannot equal the number of still-live handles in both runs. -/
theorem publish_response_not_count :
    (sendHandler [("room1", [WS.mk 1 1, WS.mk 2 1])] "room1" (some "hi")).response
      = (sendHandler [("room1", [WS.mk 1 1])] "room1" (some "hi")).response
  ∧ (sendHandler [("room1", [WS.mk 1 1, WS.mk 2 1])] "room1" (some "hi")).status
      = (sendHandler [("room1", [WS.mk 1 1])] "room1" (some "hi")).status
  ∧ liveCount [("room1", [WS.mk 1 1, WS.mk 2 1])] "room1" = 2
  ∧ liveCount [("room1", [WS.mk 1 1])] "room1" = 1 := by
  refine ⟨?_, ?_, ?_, ?_⟩ <;> decide

/-- Claim C1 (amended): `publish(C, m)` on a channel present in the mapping
hands the envelope `channel := C, message := m` to every still-live handle in
C's set (both of `h1, h2` when live) and to nothing else; the number of
deliveries performed equals the number of still-live handles at dispatch
time.  The publisher, however, receives the fixed success response
`Message sent` (HTTP 200), which carries no delivery count. -/
theorem publish_delivers_envelope_to_live (chs : Channels) (c : String) (m : String)
    (hm : m ≠ "") (hc : hasChannel chs c = true) :
    (sendHandler chs c (some m)).status = 200
  ∧ (sendHandler chs c (some m)).response = SendResponse.messageSent
  ∧ (sendHandler chs c (some m)).deliveries.length = liveCount chs c
  ∧ (∀ w ∈ (getChannel chs c).getD [], w.readyState = WSOPEN →
      (w, Envelope.mk c m) ∈ (sendHandler chs c (some m)).deliveries)
  ∧ (∀ w e, (w, e) ∈ (sendHandler chs c (some m)).deliveries →
      e = Envelope.mk c m ∧ w.readyState = WSOPEN ∧ w ∈ (getChannel chs c).getD []) := by
  rw [sendHandler_present chs c m hm hc]
  rw [deliveries_as_filter ((getChannel chs c).getD []) c m]
  refine ⟨rfl, rfl, ?_, ?_, ?_⟩
  · simp [liveCount]
  · intro w hw hlive
    simp only [List.mem_map]
    refine ⟨w, ?_, rfl⟩
    rw [List.mem_filter]
    exact ⟨hw, by simp [hlive]⟩
  · intro w e he
    simp only [List.mem_map] at he
    obtain ⟨x, hx, hxe⟩ := he
    obtain ⟨hx1, hx2⟩ := List.mem_filter.mp hx
    cases hxe
    exact ⟨rfl, by simpa using hx2, hx1⟩

/-- Witness for `publish_delivers_envelope_to_live`: channel `room1` with the
two live handles 1 and 2; both receive the envelope and the delivery count is
the live count. -/
theorem publish_delivers_envelope_to_live_witness :
    (sendHandler [("room1", [WS.mk 1 1, WS.mk 2 1])] "room1" (some "hi")).deliveries.length
      = liveCount [("room1", [WS.mk 1 1, WS.mk 2 1])] "room1"
  ∧ (WS.mk 1 1, Envelope.mk "room1" "hi")
      ∈ (sendHandler [("room1", [WS.mk 1 1, WS.mk 2 1])] "room1" (some "hi")).deliveries
  ∧ (WS.mk 2 1, Envelope.mk "room1" "hi")
      ∈ (sendHandler [("room1", [WS.mk 1 1, WS.mk 2 1])] "room1" (some "hi")).deliveries := by
  have h := publish_delivers_envelope_to_live [("room1", [WS.mk 1 1, WS.mk 2 1])] "room1" "hi"
    (by decide) (by decide)
  exact ⟨h.2.2.1, h.2.2.2.1 (WS.mk 1 1) (by decide) rfl, h.2.2.2.1 (WS.mk 2 1) (by decide) rfl⟩

/-- Claim C4: every registry operation — `subscribe`, `unsubscribe`,
`publish`, and the whole connection handler — preserves the invariant that a
channel is present in the mapping iff its handle set is non-empty; in
particular `unsubscribe` prunes an emptied set in the same operation. -/
theorem registry_invariant_preserved (chs : Channels) (c : String) (w : WS)
    (m : Option String) (h : Invariant chs) :
    Invariant (subscribe chs c w)
  ∧ Invariant (unsubscribe chs c w)
  ∧ Invariant (sendHandler chs c m).channelsAfter
  ∧ (∀ u, Invariant (handleConnection chs w u).1) := by
  refine ⟨invariant_subscribe chs c w h, invariant_unsubscribe chs c w h, ?_, ?_⟩
  · rw [sendHandler_channelsAfter]
    exact h
  · intro u
    unfold handleConnection
    by_cases hu : u.drop 1 = ""
    · simpa [hu] using h
    · simpa [hu] using invariant_subscribe chs (u.drop 1) w h

/-- Witness for `registry_invariant_preserved`: a one-channel registry stays
invariant under a subscribe to a fresh channel and an unsubscribe that empties
`room1`. -/
theorem registry_invariant_preserved_witness :
    Invariant (subscribe [("room1", [WS.mk 1 1])] "room2" (WS.mk 2 1))
  ∧ Invariant (unsubscribe [("room1", [WS.mk 1 1])] "room1" (WS.mk 1 1)) := by
  have h := registry_invariant_preserved [("room1", [WS.mk 1 1])] "room2" (WS.mk 2 1)
    (some "hi") (by unfold Invariant; decide)
  have h' := registry_invariant_preserved [("room1", [WS.mk 1 1])] "room1" (WS.mk 1 1)
    (some "hi") (by unfold Invariant; decide)
  exact ⟨h.1, h'.2.1⟩

/-- Claim C7 fails as stated: starting from a registry in which `room1`
already holds another handle, `subscribe(room1, h1)` followed by
`unsubscribe(room1, h1)` leaves `room1` present in the mapping. -/
theorem sub_unsub_other_handle_remains :
    hasChannel
      (unsubscribe (subscribe [("room1", [WS.mk 2 1])] "room1" (WS.mk 1 1))
        "room1" (WS.mk 1 1))
      "room1" = true := by
  decide

/-- Claim C7 (amended): if channel C is absent from the registry beforehand
(so h is its only subscriber after the subscribe), then `subscribe(C, h)`
followed by `unsubscribe(C, h)` restores the original registry; in
particular C is absent afterwards (empty-channel pruning). -/
theorem sub_unsub_prunes_channel (chs : Channels) (c : String) (w : WS)
    (h : hasChannel chs c = false) :
    unsubscribe (subscribe chs c w) c w = chs
  ∧ hasChannel (unsubscribe (subscribe chs c w) c w) c = false := by
  have hsub : subscribe chs c w = chs ++ [(c, [w])] := subscribe_not_has chs c w h
  have hdel : setDelete [w] w = [] := by simp [setDelete]
  have hmain : unsubscribe (chs ++ [(c, [w])]) c w = chs := by
    rw [unsubscribe_eq_of_get (chs ++ [(c, [w])]) c w [w]
      (getChannel_append_not_has chs c [w] h)]
    rw [hdel]
    simp [mapRemove_append_not_has chs c [w] h]
  constructor
  · rw [hsub]
    exact hmain
  · rw [hsub, hmain]
    exact h

/-- Witness for `sub_unsub_prunes_channel`: the empty registry. -/
theorem sub_unsub_prunes_channel_witness :
    unsubscribe (subscribe [] "room1" (WS.mk 1 1)) "room1" (WS.mk 1 1) = []
  ∧ hasChannel (unsubscribe (subscribe [] "room1" (WS.mk 1 1)) "room1" (WS.mk 1 1))
      "room1" = false :=
  sub_unsub_prunes_channel [] "room1" (WS.mk 1 1) rfl

/-- Claim C8: `unsubscribe` called with a channel absent from the mapping, or
with a handle not in the channel's set, is a benign no-op that leaves the
registry unchanged (the stored set is non-empty by the C4 invariant). -/
theorem unsubscribe_absent_noop (chs : Channels) (c : String) (w : WS)
    (h : Invariant chs)
    (hab : getChannel chs c = none ∨ memberOf chs c w = false) :
    unsubscribe chs c w = chs := by
  cases hg : getChannel chs c with
  | none => exact unsubscribe_none chs c w hg
  | some s =>
    have hmem : memberOf chs c w = false := by
      rcases hab with h1 | h2
      · rw [h1] at hg
        cases hg
      · exact h2
    have hany : s.any (fun x => x.id == w.id) = false := by
      unfold memberOf at hmem
      rw [hg] at hmem
      simpa using hmem
    have hsd : setDelete s w = s := setDelete_of_not_mem s w hany
    have hne : s ≠ [] := h (c, s) (getChannel_mem chs c s hg)
    rw [unsubscribe_eq_of_get chs c w s hg, hsd]
    rw [if_neg (by simpa using hne)]
    exact mapUpdate_self chs c s (fun _ => s) hg rfl

/-- Witness for `unsubscribe_absent_noop`: an absent channel and a handle
that is not a member. -/
theorem unsubscribe_absent_noop_witness :
    unsubscribe [("room1", [WS.mk 1 1])] "room2" (WS.mk 2 1) = [("room1", [WS.mk 1 1])]
  ∧ unsubscribe [("room1", [WS.mk 1 1])] "room1" (WS.mk 9 1) = [("room1", [WS.mk 1 1])] := by
  constructor
  · exact unsubscribe_absent_noop [("room1", [WS.mk 1 1])] "room2" (WS.mk 2 1)
      (by unfold Invariant; decide) (Or.inl (by decide))
  · exact unsubscribe_absent_noop [("room1", [WS.mk 1 1])] "room1" (WS.mk 9 1)
      (by unfold Invariant; decide) (Or.inr (by decide))

/-- Claim C6: `subscribe` is idempotent — subscribing a handle already in the
channel's set is a no-op, double-subscribing equals subscribing once, and a
handle subscribed twice receives exactly one delivery per publish.  The
hypotheses say the stored set has pairwise-distinct identities and that a
stored handle with `w`'s identity is `w` itself (JS reference semantics). -/
theorem subscribe_idempotent (chs : Channels) (c : String) (w : WS) (m : String)
    (hm : m ≠ "") (hw : w.readyState = WSOPEN)
    (hnd : ((getChannel chs c).getD []).Pairwise (fun a b => a.id ≠ b.id))
    (hcoh : ∀ x ∈ (getChannel chs c).getD [], x.id = w.id → x = w) :
    (memberOf chs c w = true → subscribe chs c w = chs)
  ∧ subscribe (subscribe chs c w) c w = subscribe chs c w
  ∧ countDeliveriesTo
      (sendHandler (subscribe (subscribe chs c w) c w) c (some m)) w = 1 := by
  have part1 : memberOf chs c w = true → subscribe chs c w = chs := by
    intro hmemb
    cases hg : getChannel chs c with
    | none =>
      unfold memberOf at hmemb
      rw [hg] at hmemb
      simp at hmemb
    | some s =>
      have hany : s.any (fun x => x.id == w.id) = true := by
        unfold memberOf at hmemb
        rw [hg] at hmemb
        simpa using hmemb
      have hhas : hasChannel chs c = true := by
        unfold hasChannel
        rw [hg]
        rfl
      rw [subscribe_has chs c w hhas]
      exact mapUpdate_self chs c s (fun t => setAdd t w) hg (setAdd_of_mem s w hany)
  have hget1 := getChannel_subscribe chs c w
  have hhas1 : hasChannel (subscribe chs c w) c = true := by
    unfold hasChannel
    rw [hget1]
    rfl
  have hidem : subscribe (subscribe chs c w) c w = subscribe chs c w := by
    rw [subscribe_has (subscribe chs c w) c w hhas1]
    exact mapUpdate_self (subscribe chs c w) c (setAdd ((getChannel chs c).getD []) w)
      (fun t => setAdd t w) hget1
      (setAdd_of_mem (setAdd ((getChannel chs c).getD []) w) w
        (setAdd_mem ((getChannel chs c).getD []) w))
  refine ⟨part1, hidem, ?_⟩
  have hcoh' : ∀ x ∈ setAdd ((getChannel chs c).getD []) w, x.id = w.id → x = w := by
    intro x hx hid
    rcases setAdd_subset ((getChannel chs c).getD []) w x hx with h1 | h2
    · exact hcoh x h1 hid
    · exact h2
  have hnd' := setAdd_pairwise ((getChannel chs c).getD []) w hnd
  rw [hidem]
  unfold countDeliveriesTo
  rw [sendHandler_deliveries_eq (subscribe chs c w) c m hm hhas1]
  rw [hget1]
  simp only [Option.getD_some]
  rw [count_deliveries_filterMap (setAdd ((getChannel chs c).getD []) w) c m w hw hcoh']
  exact countP_id_eq_one (setAdd ((getChannel chs c).getD []) w) w hnd'
    (setAdd_mem ((getChannel chs c).getD []) w)

/-- Witness for `subscribe_idempotent`: handle 1 double-subscribed to `room1`
on the empty registry; one delivery results. -/
theorem subscribe_idempotent_witness :
    subscribe (subscribe [] "room1" (WS.mk 1 1)) "room1" (WS.mk 1 1)
      = subscribe [] "room1" (WS.mk 1 1)
  ∧ countDeliveriesTo
      (sendHandler (subscribe (subscribe [] "room1" (WS.mk 1 1)) "room1" (WS.mk 1 1))
        "room1" (some "hi")) (WS.mk 1 1) = 1 := by
  have h := subscribe_idempotent [] "room1" (WS.mk 1 1) "hi" (by decide) rfl
    (by simp [getChannel]) (by simp [getChannel])
  exact ⟨h.2.1, h.2.2⟩

/-- Claim C3 fails as stated: publishing to `room1`, whose set holds the live
handle 8 and the dead handle 7 (readyState `CLOSED = 3`), skips handle 7 and
delivers only to handle 8 — but handle 7 is **not** removed: it is still a
member of `room1`'s set in the mapping after the publish. -/
theorem publish_keeps_dead_handle :
    (sendHandler [("room1", [WS.mk 8 1, WS.mk 7 3])] "room1" (some "hi")).deliveries
      = [(WS.mk 8 1, Envelope.mk "room1" "hi")]
  ∧ memberOf
      (sendHandler [("room1", [WS.mk 8 1, WS.mk 7 3])] "room1" (some "hi")).channelsAfter
      "room1" (WS.mk 7 3) = true := by
  refine ⟨?_, ?_⟩ <;> decide

/-- Claim C3 (amended): a handle non-live at delivery time is skipped by
`publish` — it receives no envelope, while every live handle in the set still
receives one — but `publish` itself leaves the channel map unchanged and does
not remove the handle.  The removal happens only when the handle's close
event runs the `unsubscribe` path; after that the handle is no longer a
member of C's set and receives nothing from subsequent publishes. -/
theorem dead_handle_skipped_removed_on_close (chs : Channels) (c : String) (m : String)
    (w : WS) (hm : m ≠ "") (hw : ¬ w.readyState = WSOPEN) (hnd : KeysNodup chs) :
    (∀ e, ¬ ((w, e) ∈ (sendHandler chs c (some m)).deliveries))
  ∧ (∀ x ∈ (getChannel chs c).getD [], x.readyState = WSOPEN →
      (x, Envelope.mk c m) ∈ (sendHandler chs c (some m)).deliveries)
  ∧ (sendHandler chs c (some m)).channelsAfter = chs
  ∧ memberOf (unsubscribe chs c w) c w = false
  ∧ (∀ e, ¬ ((w, e) ∈ (sendHandler (unsubscribe chs c w) c (some m)).deliveries)) :=
  ⟨dead_not_delivered chs c (some m) w hw,
   live_delivered chs c m hm,
   sendHandler_channelsAfter chs c (some m),
   unsubscribe_not_member chs c w hnd,
   dead_not_delivered (unsubscribe chs c w) c (some m) w hw⟩

/-- Witness for `dead_handle_skipped_removed_on_close`: channel `room1` with
live handle 8 and dead handle 7. -/
theorem dead_handle_skipped_removed_on_close_witness :
    (∀ e, ¬ ((WS.mk 7 3, e)
      ∈ (sendHandler [("room1", [WS.mk 8 1, WS.mk 7 3])] "room1" (some "hi")).deliveries))
  ∧ memberOf (unsubscribe [("room1", [WS.mk 8 1, WS.mk 7 3])] "room1" (WS.mk 7 3))
      "room1" (WS.mk 7 3) = false := by
  have h := dead_handle_skipped_removed_on_close [("room1", [WS.mk 8 1, WS.mk 7 3])]
    "room1" "hi" (WS.mk 7 3) (by decide) (by decide) (by unfold KeysNodup; decide)
  exact ⟨h.1, h.2.2.2.1⟩

end EchoCast
